import Mathlib

/-!
Shallow embedding of the object-variant cache server of the tammiegotchi
repository (the Express server part of the source: facing normalization,
prompt-key normalization, the on-disk variant cache with its lookup /
insert / remove operations, the path-confinement check for edits, and the
request handlers for create-object and edit-object).

Conventions of the embedding:
* JS strings are `String`; a missing/empty request field is the empty string
  (both are falsy in the source's `!field` checks).
* The global mutable cache plus its persisted JSON snapshot become an
  explicit `CacheState` (in-memory table, persisted table) threaded through
  the operations; `fs.writeFileSync` success is a `persistOk : Bool`
  parameter and its failure surfaces as `Except.error`.
* The filesystem seen by `fs.existsSync` is the list of existing absolute
  paths; a successful generation call adds its output file.
* The external generator subprocess is an oracle `gen : GenCall → Except
  String Unit`; `Date.now()`/`Math.random()` in output-file naming are
  replaced by an explicit `OutFile` input, `Date.now()` in cache timestamps
  by an explicit `now : Nat`.
* Node `path.join`/`path.normalize` are modelled for absolute POSIX paths
  (the server's directories are absolute).
-/

set_option autoImplicit false

namespace Tammie

/-- The four sprite orientations. -/
inductive Facing where
  | north
  | south
  | east
  | west
deriving DecidableEq, Repr

/-- `normalizeFacing`: any value other than the four orientation strings
defaults to `south`. -/
def normalizeFacing (facing : String) : Facing :=
  if facing = "north" then Facing.north
  else if facing = "south" then Facing.south
  else if facing = "east" then Facing.east
  else if facing = "west" then Facing.west
  else Facing.south

/-- The string form of a normalized facing. -/
def Facing.str : Facing → String
  | Facing.north => "north"
  | Facing.south => "south"
  | Facing.east => "east"
  | Facing.west => "west"

/-- `oppositeFacing` on normalized values (the source normalizes its string
argument first and then applies exactly this mapping). -/
def oppositeFacing : Facing → Facing
  | Facing.north => Facing.south
  | Facing.south => Facing.north
  | Facing.east => Facing.west
  | Facing.west => Facing.east

/-- JS whitespace class `\s` restricted to ASCII: space, tab, newline,
carriage return, vertical tab, form feed. -/
def jsWs (c : Char) : Bool :=
  c = ' ' || c = '\t' || c = '\n' || c = '\r' || c = '\x0b' || c = '\x0c'

/-- ASCII model of JS `String.prototype.toLowerCase` on a single character. -/
def lowerChar : Char → Char
  | 'A' => 'a' | 'B' => 'b' | 'C' => 'c' | 'D' => 'd' | 'E' => 'e'
  | 'F' => 'f' | 'G' => 'g' | 'H' => 'h' | 'I' => 'i' | 'J' => 'j'
  | 'K' => 'k' | 'L' => 'l' | 'M' => 'm' | 'N' => 'n' | 'O' => 'o'
  | 'P' => 'p' | 'Q' => 'q' | 'R' => 'r' | 'S' => 's' | 'T' => 't'
  | 'U' => 'u' | 'V' => 'v' | 'W' => 'w' | 'X' => 'x' | 'Y' => 'y'
  | 'Z' => 'z'
  | c => c

/-- Lowercase every character. -/
def lowerList (l : List Char) : List Char := l.map lowerChar

/-- Left trim: drop leading whitespace (the left half of JS `trim()`). -/
def ltrim (l : List Char) : List Char := l.dropWhile jsWs

/-- Right trim: drop trailing whitespace (the right half of JS `trim()`). -/
def rtrim : List Char → List Char
  | [] => []
  | c :: rest =>
    match rtrim rest with
    | [] => if jsWs c then [] else [c]
    | r :: rs => c :: r :: rs

/-- The state machine of `replace(/\s+/g, ' ')`: each maximal whitespace run
becomes a single space; the boolean records whether the previous character
was part of a whitespace run. -/
def collapseGo : Bool → List Char → List Char
  | _, [] => []
  | prevWs, c :: rest =>
    if jsWs c then
      if prevWs then collapseGo true rest
      else ' ' :: collapseGo true rest
    else c :: collapseGo false rest

/-- `normalizeObjectKey`: trim, lowercase, collapse internal whitespace runs
to single spaces — the object-identity key derived from the prompt. -/
def normalizeObjectKey (s : String) : String :=
  ⟨collapseGo false (lowerList (rtrim (ltrim s.data)))⟩

/-- The whitespace-separated words of a character list (maximal runs of
non-whitespace characters, in order). -/
def wsTokens : List Char → List (List Char)
  | [] => []
  | c :: rest =>
    if jsWs c then wsTokens rest
    else
      match rest with
      | [] => [[c]]
      | d :: _ =>
        if jsWs d then [c] :: wsTokens rest
        else
          match wsTokens rest with
          | [] => [[c]]
          | t :: ts => (c :: t) :: ts

/-- Join words with single spaces. -/
def joinSp : List (List Char) → List Char
  | [] => []
  | t :: ts =>
    match ts with
    | [] => t
    | _ :: _ => t ++ ' ' :: joinSp ts

/-- Modelled from the spec: object identity is the prompt "lowercased,
trimmed, internal whitespace collapsed to single spaces" — rendered here as
the lowercased whitespace-separated words joined by single spaces. -/
def specIdentity (s : String) : String :=
  ⟨joinSp (wsTokens (lowerList s.data))⟩

/-- One cached artifact for an (identity, orientation) pair, as stored in
the snapshot: `{ imageUrl, updatedAt }`. -/
structure VariantEntry where
  imageUrl : String
  updatedAt : Nat
deriving DecidableEq, Repr

/-- The per-identity orientation map (a JS object with at most the four
facing keys). -/
structure OrientMap where
  north : Option VariantEntry
  south : Option VariantEntry
  east : Option VariantEntry
  west : Option VariantEntry
deriving DecidableEq, Repr

def OrientMap.empty : OrientMap := ⟨none, none, none, none⟩

def OrientMap.get (m : OrientMap) : Facing → Option VariantEntry
  | Facing.north => m.north
  | Facing.south => m.south
  | Facing.east => m.east
  | Facing.west => m.west

def OrientMap.set (m : OrientMap) (f : Facing) (v : Option VariantEntry) : OrientMap :=
  match f with
  | Facing.north => ⟨v, m.south, m.east, m.west⟩
  | Facing.south => ⟨m.north, v, m.east, m.west⟩
  | Facing.east => ⟨m.north, m.south, v, m.west⟩
  | Facing.west => ⟨m.north, m.south, m.east, v⟩

/-- `Object.keys(obj).length === 0` for an orientation map. -/
def OrientMap.isEmpty (m : OrientMap) : Bool :=
  m.north.isNone && m.south.isNone && m.east.isNone && m.west.isNone

/-- The variant table: identity → orientation map, as a key-unique
association list (a JS object). -/
abbrev Cache := List (String × OrientMap)

/-- `objectImageCache[key]`. -/
def cacheFind (c : Cache) (k : String) : Option OrientMap :=
  (c.find? (fun p => p.1 == k)).map (fun p => p.2)

/-- `objectImageCache[key] = m` (replace, or append a fresh key). -/
def cacheSet (c : Cache) (k : String) (m : OrientMap) : Cache :=
  match c with
  | [] => [(k, m)]
  | (k', m') :: rest => if k' = k then (k, m) :: rest else (k', m') :: cacheSet rest k m

/-- `delete objectImageCache[key]`. -/
def cacheErase (c : Cache) (k : String) : Cache :=
  match c with
  | [] => []
  | (k', m') :: rest => if k' = k then cacheErase rest k else (k', m') :: cacheErase rest k

/-- The body of `rememberVariant` before `saveCache()`: create the identity
entry if missing and overwrite its facing slot. -/
def cacheInsert (c : Cache) (k : String) (f : Facing) (e : VariantEntry) : Cache :=
  let m := (cacheFind c k).getD OrientMap.empty
  cacheSet c k (m.set f (some e))

/-- The table entry for an (identity, orientation) pair, ignoring storage. -/
def lookupEntry (c : Cache) (k : String) (f : Facing) : Option VariantEntry :=
  match cacheFind c k with
  | none => none
  | some m => m.get f

/-- In-memory table plus the persisted snapshot (`object-image-cache.json`). -/
structure CacheState where
  mem : Cache
  disk : Cache
deriving DecidableEq, Repr

/-- The error message carried by a failing snapshot write (the concrete
system message of `fs.writeFileSync` is abstracted to a fixed string). -/
def persistFailureMsg : String := "cache persist failed"

/-- `saveCache()`: write the whole in-memory table as the new snapshot, or
throw when the storage write fails. -/
def saveCache (mem : Cache) (persistOk : Bool) : Except String Cache :=
  if persistOk then Except.ok mem else Except.error persistFailureMsg

/-- `rememberVariant`: mutate the in-memory table, then persist. On a
persist failure the exception propagates while the in-memory mutation
remains in place. -/
def rememberVariant (s : CacheState) (objectKey : String) (facing : Facing)
    (imageUrl : String) (now : Nat) (persistOk : Bool) :
    Except String Unit × CacheState :=
  let mem' := cacheInsert s.mem objectKey facing ⟨imageUrl, now⟩
  match saveCache mem' persistOk with
  | Except.ok disk' => (Except.ok (), ⟨mem', disk'⟩)
  | Except.error e => (Except.error e, ⟨mem', s.disk⟩)

/-- `removeVariant`: delete the facing slot if present, drop the identity
entry when its orientation map becomes empty, persist, and report whether
anything was removed. -/
def removeVariant (s : CacheState) (objectKey : String) (facing : Facing)
    (persistOk : Bool) : Except String Bool × CacheState :=
  match cacheFind s.mem objectKey with
  | none => (Except.ok false, s)
  | some m =>
    match m.get facing with
    | none => (Except.ok false, s)
    | some _ =>
      let m' := m.set facing none
      let mem' := if m'.isEmpty then cacheErase s.mem objectKey
                  else cacheSet s.mem objectKey m'
      match saveCache mem' persistOk with
      | Except.ok disk' => (Except.ok true, ⟨mem', disk'⟩)
      | Except.error e => (Except.error e, ⟨mem', s.disk⟩)

/-- `PUBLIC_DIR = path.join(ROOT, 'public')`. -/
def publicDir (root : String) : String := root ++ "/public"

/-- `GENERATED_DIR = path.join(PUBLIC_DIR, 'generated')`. -/
def generatedDir (root : String) : String := publicDir root ++ "/generated"

/-- Split a character list at every `/`. -/
def splitSlash : List Char → List (List Char)
  | [] => [[]]
  | c :: rest =>
    match splitSlash rest with
    | [] => [[]]
    | t :: ts => if c = '/' then [] :: t :: ts else (c :: t) :: ts

/-- Join segments with `/`. -/
def joinSlash : List (List Char) → List Char
  | [] => []
  | t :: ts =>
    match ts with
    | [] => t
    | _ :: _ => t ++ '/' :: joinSlash ts

/-- `startsWith`, via the character lists. -/
def strStartsWith (s pre : String) : Bool := pre.data.isPrefixOf s.data

/-- Resolve `.`/`..`/empty segments of an absolute path left to right
(`..` above the root is dropped, as Node does for absolute paths). -/
def normSegs (acc : List (List Char)) : List (List Char) → List (List Char)
  | [] => acc
  | seg :: rest =>
    if seg = [] ∨ seg = ['.'] then normSegs acc rest
    else if seg = ['.', '.'] then normSegs acc.dropLast rest
    else normSegs (acc ++ [seg]) rest

/-- Node `path.normalize` for absolute POSIX paths (trailing slash kept). -/
def normalizeAbs (s : String) : String :=
  let segs := normSegs [] (splitSlash s.data)
  let base := '/' :: joinSlash segs
  ⟨if s.data.getLast? = some '/' ∧ segs ≠ [] then base ++ ['/'] else base⟩

/-- Node `path.join` for an absolute first component: concatenate with a
separator and normalize. -/
def pathJoin (a b : String) : String := normalizeAbs (a ++ "/" ++ b)

/-- `absFromImageUrl`: `path.join(PUBLIC_DIR, imageUrl)`. -/
def absFromImageUrl (root imageUrl : String) : String :=
  pathJoin (publicDir root) imageUrl

/-- A cache hit as returned by `getCachedVariant`. -/
structure Hit where
  imageUrl : String
  abs : String
deriving DecidableEq, Repr

/-- `getCachedVariant`: a hit needs a table entry with a truthy `imageUrl`
whose backing file still exists; everything else is a miss (never an
error). -/
def getCachedVariant (root : String) (c : Cache) (files : List String)
    (objectKey : String) (facing : Facing) : Option Hit :=
  match cacheFind c objectKey with
  | none => none
  | some m =>
    match m.get facing with
    | none => none
    | some v =>
      if v.imageUrl = "" then none
      else
        let abs := absFromImageUrl root v.imageUrl
        if files.contains abs then some ⟨v.imageUrl, abs⟩ else none

/-- The fixed scan order of `anyCachedVariant`. -/
def facingScanOrder : List Facing :=
  [Facing.south, Facing.east, Facing.west, Facing.north]

/-- `anyCachedVariant`: the first facing in scan order whose cached variant
still exists, together with that facing. -/
def anyCachedVariant (root : String) (c : Cache) (files : List String)
    (objectKey : String) : Option (Facing × Hit) :=
  match cacheFind c objectKey with
  | none => none
  | some _ =>
    facingScanOrder.findSome?
      (fun f => (getCachedVariant root c files objectKey f).map (fun h => (f, h)))

/-- `assertSafeGeneratedPath`: the edit-base image must be a `/generated/`
URL whose normalized absolute path stays inside the generated directory. -/
def assertSafeGeneratedPath (root imageUrl : String) : Except String String :=
  if imageUrl = "" then Except.error "imageUrl is required"
  else if !(strStartsWith imageUrl "/generated/") then
    Except.error "Only /generated images can be edited"
  else
    let abs := pathJoin (publicDir root) imageUrl
    let norm := normalizeAbs abs
    let genNorm := normalizeAbs (generatedDir root ++ "/")
    if strStartsWith norm genNorm then Except.ok norm
    else Except.error "Invalid image path"

/-- `orientationPhraseFromFacing` on a normalized facing. -/
def orientationPhraseFromFacing : Facing → String
  | Facing.east => "as viewed from the side. (orientation: facing right)"
  | Facing.west => "as viewed from the side. (orientation: facing left)"
  | Facing.north => "as viewed from behind. (orientation: facing away)"
  | Facing.south => "as viewed from in front. (orientation: facing toward viewer)"

/-- `spritePrompt`: the full-generation prompt template. -/
def spritePrompt (userPrompt : String) (objectFacing : Facing)
    (referenceInstruction : String) : String :=
  "Create a " ++ userPrompt ++ ", " ++ orientationPhraseFromFacing objectFacing ++ " " ++
  "Sprite art style, top-down 2.5D game asset, crisp readable silhouette, centered subject. " ++
  "This will be a video game asset facing " ++ objectFacing.str ++ ". " ++
  referenceInstruction ++ " DO NOT INCLUDE THE REFERENCE IMAGE. " ++
  "Orientation: " ++ orientationPhraseFromFacing objectFacing ++ ". " ++
  "Show the full object, fully visible, and make it take up most of the frame."

/-- `reorientPromptFromExisting`: the cross-orientation reuse prompt. -/
def reorientPromptFromExisting (objectName : String) (objectFacing : Facing) : String :=
  match objectFacing with
  | Facing.east =>
    "Reorient this same " ++ objectName ++ " to face right only. " ++
    "Keep the exact same object identity, design, colors, and scale. " ++
    "Do not redesign or add new features. " ++
    "This will be a video game asset facing east."
  | Facing.west =>
    "Reorient this same " ++ objectName ++ " to face left only. " ++
    "Keep the exact same object identity, design, colors, and scale. " ++
    "Do not redesign or add new features. " ++
    "This will be a video game asset facing west."
  | Facing.north =>
    "Show this same " ++ objectName ++ " from the back only. " ++
    "Keep the exact same object identity, design, colors, and scale. " ++
    "Do not redesign or add new features. " ++
    "This will be a video game asset facing north."
  | Facing.south =>
    "Show this same " ++ objectName ++ " from the front only. " ++
    "Keep the exact same object identity, design, colors, and scale. " ++
    "Do not redesign or add new features. " ++
    "This will be a video game asset facing south."

/-- The edit prompt of `handleEditObject`. -/
def editPrompt (interaction : String) : String :=
  "Sprite art style, top-down 2.5D game asset, crisp readable silhouette, centered subject. " ++
  "Use the provided object reference image for style guidance. " ++
  "Show the full object, fully visible, and make it take up most of the frame. " ++
  "Make changes to this image as a result of this interaction: " ++ interaction ++ ". " ++
  "Preserve overall sprite readability and keep transparent-ready edges."

/-- `raccoonRefPathFromFacing`: the stylistic reference image for a cold
generation. -/
def raccoonRefPathFromFacing (root : String) (f : Facing) : String :=
  publicDir root ++ "/assets/raccoon_" ++ f.str ++ ".png"

/-- The options object handed to `runGenerator` (one external generation
request). -/
structure GenCall where
  prompt : String
  outputAbs : String
  editAbs : Option String
  refAbsList : List String
  whiteKey : Option String
  floodFillThreshold : Option Nat
  removeBg : Bool
deriving DecidableEq, Repr

/-- The per-route background-removal options (`opts` of the handlers). -/
structure GenOpts where
  whiteKey : Option String
  floodFillThreshold : Option Nat
deriving DecidableEq, Repr

/-- `runGenerator`: refuse before any call when the API key is missing;
otherwise issue exactly one generation call whose failure is wrapped as
`Generator failed: …`. The returned list records the calls issued. -/
def runGenerator (apiKey : Bool) (gen : GenCall → Except String Unit)
    (call : GenCall) : Except String Unit × List GenCall :=
  if apiKey then
    match gen call with
    | Except.ok _ => (Except.ok (), [call])
    | Except.error e => (Except.error ("Generator failed: " ++ e), [call])
  else (Except.error "GEMINI_API_KEY is not configured in environment/.env", [])

/-- A fresh output file as produced by `outputFileAbsolute()`. -/
structure OutFile where
  abs : String
  url : String
deriving DecidableEq, Repr

/-- The JSON response of a handler: status plus the optional body fields. -/
structure Resp where
  status : Nat
  name : Option String
  imageUrl : Option String
  cached : Option Bool
  objectKey : Option String
  orientation : Option Facing
  reorientedFrom : Option Facing
  error : Option String
deriving DecidableEq, Repr

/-- An error response carrying only `{error}`. -/
def Resp.err (status : Nat) (e : String) : Resp :=
  ⟨status, none, none, none, none, none, none, some e⟩

/-- Full server state: the cache (memory + snapshot) and the existing
files. -/
structure ServerState where
  cache : CacheState
  files : List String
deriving DecidableEq, Repr

/-- The body of a create-object request. -/
structure GenObjectReq where
  name : String
  prompt : String
  playerFacing : String
deriving DecidableEq, Repr

/-- The body of an edit-object request. -/
structure EditObjectReq where
  name : String
  imageUrl : String
  interaction : String
  playerFacing : String
deriving DecidableEq, Repr

/-- `handleGenerateObject`: exact cache hit, else cross-orientation reuse,
else cold generation; successful generations insert into the cache and
persist it. Returns the response, the new server state, and the generation
calls issued. -/
def handleGenerateObject (root : String) (st : ServerState) (req : GenObjectReq)
    (out : OutFile) (apiKey : Bool) (persistOk : Bool) (now : Nat)
    (gen : GenCall → Except String Unit) (opts : GenOpts) :
    Resp × ServerState × List GenCall :=
  if req.name = "" ∨ req.prompt = "" then
    (Resp.err 400 "name and prompt are required", st, [])
  else
    let objectFacing := oppositeFacing (normalizeFacing req.playerFacing)
    let objectKey := normalizeObjectKey req.prompt
    match getCachedVariant root st.cache.mem st.files objectKey objectFacing with
    | some exact =>
      (⟨200, some req.name, some exact.imageUrl, some true, some objectKey,
        some objectFacing, none, none⟩, st, [])
    | none =>
      match anyCachedVariant root st.cache.mem st.files objectKey with
      | some existingAny =>
        let call : GenCall :=
          ⟨reorientPromptFromExisting req.name objectFacing, out.abs,
           some existingAny.2.abs, [], opts.whiteKey, opts.floodFillThreshold, true⟩
        match runGenerator apiKey gen call with
        | (Except.error e, calls) => (Resp.err 500 e, st, calls)
        | (Except.ok _, calls) =>
          let files' := out.abs :: st.files
          match rememberVariant st.cache objectKey objectFacing out.url now persistOk with
          | (Except.ok _, cache') =>
            (⟨200, some req.name, some out.url, some false, some objectKey,
              some objectFacing, some existingAny.1, none⟩,
             ⟨cache', files'⟩, calls)
          | (Except.error e, cache') =>
            (Resp.err 500 e, ⟨cache', files'⟩, calls)
      | none =>
        let call : GenCall :=
          ⟨spritePrompt req.prompt objectFacing
             "Use the provided raccoon reference image for style and orientation guidance.",
           out.abs, none, [raccoonRefPathFromFacing root objectFacing],
           opts.whiteKey, opts.floodFillThreshold, true⟩
        match runGenerator apiKey gen call with
        | (Except.error e, calls) => (Resp.err 500 e, st, calls)
        | (Except.ok _, calls) =>
          let files' := out.abs :: st.files
          match rememberVariant st.cache objectKey objectFacing out.url now persistOk with
          | (Except.ok _, cache') =>
            (⟨200, some req.name, some out.url, some false, some objectKey,
              some objectFacing, none, none⟩,
             ⟨cache', files'⟩, calls)
          | (Except.error e, cache') =>
            (Resp.err 500 e, ⟨cache', files'⟩, calls)

/-- `handleEditObject`: validate the edit-base path, run one edit-style
generation, never touch the cache. -/
def handleEditObject (root : String) (st : ServerState) (req : EditObjectReq)
    (out : OutFile) (apiKey : Bool) (gen : GenCall → Except String Unit)
    (opts : GenOpts) : Resp × ServerState × List GenCall :=
  if req.name = "" ∨ req.imageUrl = "" ∨ req.interaction = "" then
    (Resp.err 400 "name, imageUrl, and interaction are required", st, [])
  else
    match assertSafeGeneratedPath root req.imageUrl with
    | Except.error e => (Resp.err 400 e, st, [])
    | Except.ok inputAbs =>
      let call : GenCall :=
        ⟨editPrompt req.interaction, out.abs, some inputAbs, [],
         opts.whiteKey, opts.floodFillThreshold, true⟩
      match runGenerator apiKey gen call with
      | (Except.error e, calls) => (Resp.err 500 e, st, calls)
      | (Except.ok _, calls) =>
        (⟨200, some req.name, some out.url, none, none, none, none, none⟩,
         ⟨st.cache, out.abs :: st.files⟩, calls)

/-- `getCachedVariant` as a state transaction: its source body reads the
table and the filesystem and performs no assignment, delete or
`saveCache()`, so the state it returns is the state it was given. -/
def getCachedVariantOp (root : String) (st : ServerState) (objectKey : String)
    (facing : Facing) : Option Hit × ServerState :=
  (getCachedVariant root st.cache.mem st.files objectKey facing, st)

/-- `anyCachedVariant` as a state transaction: a pure scan over
`getCachedVariant`, with no mutation. -/
def anyCachedVariantOp (root : String) (st : ServerState) (objectKey : String) :
    Option (Facing × Hit) × ServerState :=
  (anyCachedVariant root st.cache.mem st.files objectKey, st)

/-- Concrete server root used by the witnesses. -/
def demoRoot : String := "/srv/app"

/-- A cached north-facing variant of the demo object. -/
def demoEntry : VariantEntry := ⟨"/generated/obj_a.png", 7⟩

/-- Orientation map holding only the north variant. -/
def demoMap : OrientMap := ⟨some demoEntry, none, none, none⟩

/-- A table caching one identity at orientation north only. -/
def demoCache : Cache := [("a donut with pink frosting", demoMap)]

/-- The backing file of the cached variant exists. -/
def demoFiles : List String := ["/srv/app/public/generated/obj_a.png"]

/-- Demo server state: memory and snapshot agree, one backing file. -/
def demoState : ServerState := ⟨⟨demoCache, demoCache⟩, demoFiles⟩

/-- The fresh output file of the next generation. -/
def demoOut : OutFile :=
  ⟨"/srv/app/public/generated/obj_b.png", "/generated/obj_b.png"⟩

/-- Handler options of the plain (non-experimental) routes. -/
def demoOpts : GenOpts := ⟨none, none⟩

/-- A generator oracle that always succeeds. -/
def genOk : GenCall → Except String Unit := fun _ => Except.ok ()

/-- Create-object request whose player faces north, so the object faces
south — distinct from the cached north variant. -/
def demoReqSouth : GenObjectReq := ⟨"Donut", "A Donut with  pink Frosting", "north"⟩

/-- Create-object request whose player faces south, so the object faces
north — an exact hit on the cached variant. -/
def demoReqNorth : GenObjectReq := ⟨"Donut", "A Donut with  pink Frosting", "south"⟩

/-- Edit-object request whose image URL is outside `/generated/`. -/
def demoBadEdit : EditObjectReq := ⟨"Donut", "/assets/raccoon_south.png", "sprinkle", "south"⟩

theorem OrientMap.get_set_self (m : OrientMap) (f : Facing) (v : Option VariantEntry) :
    (m.set f v).get f = v := by
  cases f <;> rfl

theorem cacheFind_cacheSet_self (c : Cache) (k : String) (m : OrientMap) :
    cacheFind (cacheSet c k m) k = some m := by
  induction c with
  | nil => simp [cacheSet, cacheFind, List.find?]
  | cons p rest ih =>
    obtain ⟨k', m'⟩ := p
    by_cases h : k' = k
    · simp [cacheSet, cacheFind, h, List.find?]
    · simpa [cacheSet, cacheFind, h, List.find?] using ih

theorem cacheFind_cacheErase_self (c : Cache) (k : String) :
    cacheFind (cacheErase c k) k = none := by
  induction c with
  | nil => simp [cacheErase, cacheFind, List.find?]
  | cons p rest ih =>
    obtain ⟨k', m'⟩ := p
    by_cases h : k' = k
    · simpa [cacheErase, h] using ih
    · simpa [cacheErase, cacheFind, h, List.find?] using ih

/-- `getCachedVariant` factored through the raw table entry. -/
theorem getCachedVariant_as_entry (root : String) (c : Cache) (files : List String)
    (k : String) (f : Facing) :
    getCachedVariant root c files k f =
      match lookupEntry c k f with
      | none => none
      | some v =>
        if v.imageUrl = "" then none
        else if files.contains (absFromImageUrl root v.imageUrl) then
          some ⟨v.imageUrl, absFromImageUrl root v.imageUrl⟩
        else none := by
  unfold getCachedVariant lookupEntry
  cases cacheFind c k with
  | none => rfl
  | some m => cases m.get f <;> rfl

theorem getCachedVariant_none_of_entry_none (root : String) (c : Cache)
    (files : List String) (k : String) (f : Facing)
    (h : lookupEntry c k f = none) :
    getCachedVariant root c files k f = none := by
  rw [getCachedVariant_as_entry, h]

/-- C5: for every identity and orientation, lookup returns a hit if and
only if the table has an entry for that pair with a non-empty image
location and the backing image file still exists on storage; a stale entry
is a miss (the operation is total — it never errors). -/
theorem c5_lookup_hit_characterization (root : String) (c : Cache)
    (files : List String) (k : String) (f : Facing) (h : Hit) :
    getCachedVariant root c files k f = some h ↔
      ∃ e, lookupEntry c k f = some e ∧ e.imageUrl ≠ "" ∧
        files.contains (absFromImageUrl root e.imageUrl) = true ∧
        h = ⟨e.imageUrl, absFromImageUrl root e.imageUrl⟩ := by
  constructor
  · intro hsome
    rw [getCachedVariant_as_entry] at hsome
    cases he : lookupEntry c k f with
    | none => simp [he] at hsome
    | some v =>
      simp only [he] at hsome
      by_cases hu : v.imageUrl = ""
      · rw [if_pos hu] at hsome; cases hsome
      · rw [if_neg hu] at hsome
        by_cases hc : files.contains (absFromImageUrl root v.imageUrl) = true
        · rw [if_pos hc] at hsome
          injection hsome with hh
          exact ⟨v, rfl, hu, hc, hh.symm⟩
        · rw [if_neg hc] at hsome; cases hsome
  · rintro ⟨e, he, hu, hc, rfl⟩
    simp only [getCachedVariant_as_entry, he]
    rw [if_neg hu, if_pos hc]

/-- C2: a create-object request whose (identity, requested orientation)
lookup hits is answered from the cache with `cached = true`, no generation
call, and the server state unchanged. -/
theorem c2_exact_hit_served_from_cache (root : String) (st : ServerState)
    (req : GenObjectReq) (out : OutFile) (apiKey persistOk : Bool) (now : Nat)
    (gen : GenCall → Except String Unit) (opts : GenOpts) (hit : Hit)
    (hname : req.name ≠ "") (hprompt : req.prompt ≠ "")
    (hhit : getCachedVariant root st.cache.mem st.files (normalizeObjectKey req.prompt)
      (oppositeFacing (normalizeFacing req.playerFacing)) = some hit) :
    handleGenerateObject root st req out apiKey persistOk now gen opts =
      (⟨200, some req.name, some hit.imageUrl, some true, some (normalizeObjectKey req.prompt),
        some (oppositeFacing (normalizeFacing req.playerFacing)), none, none⟩, st, []) := by
  unfold handleGenerateObject
  simp [hname, hprompt, hhit]

/-- Witness for C2: repeating the demo create while the player faces south
(object orientation north, which is cached) is served from the cache. -/
theorem c2_exact_hit_served_from_cache_witness :
    handleGenerateObject demoRoot demoState demoReqNorth demoOut true true 9 genOk demoOpts =
      (⟨200, some "Donut", some "/generated/obj_a.png", some true,
        some "a donut with pink frosting", some Facing.north, none, none⟩,
       demoState, []) :=
  c2_exact_hit_served_from_cache demoRoot demoState demoReqNorth demoOut true true 9
    genOk demoOpts ⟨"/generated/obj_a.png", "/srv/app/public/generated/obj_a.png"⟩
    (by decide) (by decide) (by rfl)

/-- C9: `handleEditObject` never writes into the variant cache: the
in-memory table and the persisted snapshot are unchanged on every path,
whether validation or generation succeeds or fails. -/
theorem c9_edit_never_writes_cache (root : String) (st : ServerState)
    (req : EditObjectReq) (out : OutFile) (apiKey : Bool)
    (gen : GenCall → Except String Unit) (opts : GenOpts) :
    (handleEditObject root st req out apiKey gen opts).2.1.cache = st.cache := by
  simp only [handleEditObject]
  split
  · rfl
  · split
    · rfl
    · split <;> rfl

/-- The in-memory mutation of `rememberVariant` happens whether or not the
snapshot write succeeds. -/
theorem rememberVariant_mem (s : CacheState) (k : String) (f : Facing)
    (url : String) (now : Nat) (persistOk : Bool) :
    (rememberVariant s k f url now persistOk).2.mem = cacheInsert s.mem k f ⟨url, now⟩ := by
  cases persistOk <;> simp [rememberVariant, saveCache]

/-- C6: `remove` returns true exactly when an entry for the pair was
present; a successful remove makes a subsequent lookup of the pair a miss
(regardless of the filesystem), makes a second remove return false, and
drops the whole identity entry when its orientation map became empty. -/
theorem c6_remove_semantics (s : CacheState) (k : String) (f : Facing) :
    ((removeVariant s k f true).1 = Except.ok true ↔ (lookupEntry s.mem k f).isSome = true) ∧
    ((lookupEntry s.mem k f).isSome = true →
      lookupEntry (removeVariant s k f true).2.mem k f = none ∧
      (∀ root files, getCachedVariant root (removeVariant s k f true).2.mem files k f = none) ∧
      (removeVariant (removeVariant s k f true).2 k f true).1 = Except.ok false ∧
      ((cacheFind s.mem k).map (fun m => (m.set f none).isEmpty) = some true →
        cacheFind (removeVariant s k f true).2.mem k = none)) := by
  cases hm : cacheFind s.mem k with
  | none =>
    refine ⟨?_, ?_⟩
    · simp [removeVariant, hm, lookupEntry]
    · simp [lookupEntry, hm]
  | some m =>
    cases hv : m.get f with
    | none =>
      refine ⟨?_, ?_⟩
      · simp [removeVariant, hm, hv, lookupEntry]
      · simp [lookupEntry, hm, hv]
    | some v =>
      by_cases he : (m.set f none).isEmpty = true
      · have hstate : removeVariant s k f true =
            (Except.ok true, ⟨cacheErase s.mem k, cacheErase s.mem k⟩) := by
          simp [removeVariant, hm, hv, saveCache, he]
        have hafter : lookupEntry (cacheErase s.mem k) k f = none := by
          simp [lookupEntry, cacheFind_cacheErase_self]
        refine ⟨?_, fun _ => ⟨?_, ?_, ?_, ?_⟩⟩
        · rw [hstate]; simp [lookupEntry, hm, hv]
        · rw [hstate]; exact hafter
        · intro root files
          rw [hstate]
          exact getCachedVariant_none_of_entry_none _ _ _ _ _ hafter
        · rw [hstate]; simp [removeVariant, cacheFind_cacheErase_self]
        · intro _
          rw [hstate]
          simpa using cacheFind_cacheErase_self s.mem k
      · have hstate : removeVariant s k f true =
            (Except.ok true,
             ⟨cacheSet s.mem k (m.set f none), cacheSet s.mem k (m.set f none)⟩) := by
          simp [removeVariant, hm, hv, saveCache, he]
        have hafter : lookupEntry (cacheSet s.mem k (m.set f none)) k f = none := by
          simp [lookupEntry, cacheFind_cacheSet_self, OrientMap.get_set_self]
        refine ⟨?_, fun _ => ⟨?_, ?_, ?_, ?_⟩⟩
        · rw [hstate]; simp [lookupEntry, hm, hv]
        · rw [hstate]; exact hafter
        · intro root files
          rw [hstate]
          exact getCachedVariant_none_of_entry_none _ _ _ _ _ hafter
        · rw [hstate]
          simp [removeVariant, cacheFind_cacheSet_self, OrientMap.get_set_self]
        · intro hdrop
          have hdrop' : (m.set f none).isEmpty = true := by simpa [hm] using hdrop
          exact absurd hdrop' he

/-- Witness for C6: removing the only cached orientation of the demo
object succeeds, empties its lookups, and drops the identity entry. -/
theorem c6_remove_semantics_witness :
    ((removeVariant ⟨demoCache, demoCache⟩ "a donut with pink frosting" Facing.north true).1 =
        Except.ok true ↔
      (lookupEntry demoCache "a donut with pink frosting" Facing.north).isSome = true) ∧
    (lookupEntry
        (removeVariant ⟨demoCache, demoCache⟩ "a donut with pink frosting" Facing.north true).2.mem
        "a donut with pink frosting" Facing.north = none ∧
      (∀ root files,
        getCachedVariant root
          (removeVariant ⟨demoCache, demoCache⟩ "a donut with pink frosting" Facing.north true).2.mem
          files "a donut with pink frosting" Facing.north = none) ∧
      (removeVariant
        (removeVariant ⟨demoCache, demoCache⟩ "a donut with pink frosting" Facing.north true).2
        "a donut with pink frosting" Facing.north true).1 = Except.ok false ∧
      ((cacheFind demoCache "a donut with pink frosting").map
          (fun m => (m.set Facing.north none).isEmpty) = some true →
        cacheFind
          (removeVariant ⟨demoCache, demoCache⟩ "a donut with pink frosting" Facing.north true).2.mem
          "a donut with pink frosting" = none)) :=
  ⟨(c6_remove_semantics ⟨demoCache, demoCache⟩ "a donut with pink frosting" Facing.north).1,
   (c6_remove_semantics ⟨demoCache, demoCache⟩ "a donut with pink frosting" Facing.north).2
     (by decide)⟩

/-- Counterexample to C3 as stated: with an empty table and a failing
snapshot write, `rememberVariant` raises the persistence error and yet the
in-memory table has changed. -/
theorem c3_persist_failure_counterexample :
    (rememberVariant ⟨[], []⟩ "apple" Facing.south "/generated/a.png" 0 false).1 =
      Except.error persistFailureMsg ∧
    (rememberVariant ⟨[], []⟩ "apple" Facing.south "/generated/a.png" 0 false).2.mem ≠
      ([] : Cache) := by
  refine ⟨rfl, ?_⟩
  decide

/-- C3 (amended): a failing snapshot write surfaces as an error to the
caller of insert/remove, but the in-memory table is mutated before the
persist attempt, so on persist failure it retains the mutation while the
persisted snapshot is unchanged. -/
theorem c3_persist_failure_amended (s : CacheState) (k : String) (f : Facing)
    (url : String) (now : Nat) :
    (rememberVariant s k f url now false).1 = Except.error persistFailureMsg ∧
    (rememberVariant s k f url now false).2 = ⟨cacheInsert s.mem k f ⟨url, now⟩, s.disk⟩ ∧
    ((lookupEntry s.mem k f).isSome = true →
      (removeVariant s k f false).1 = Except.error persistFailureMsg ∧
      (removeVariant s k f false).2.disk = s.disk ∧
      lookupEntry (removeVariant s k f false).2.mem k f = none) := by
  refine ⟨by simp [rememberVariant, saveCache], by simp [rememberVariant, saveCache], ?_⟩
  intro hsome
  cases hm : cacheFind s.mem k with
  | none => simp [lookupEntry, hm] at hsome
  | some m =>
    cases hv : m.get f with
    | none => simp [lookupEntry, hm, hv] at hsome
    | some v =>
      have hstate : removeVariant s k f false =
          (Except.error persistFailureMsg,
           ⟨if (m.set f none).isEmpty then cacheErase s.mem k
            else cacheSet s.mem k (m.set f none), s.disk⟩) := by
        simp [removeVariant, hm, hv, saveCache]
      rw [hstate]
      refine ⟨rfl, rfl, ?_⟩
      by_cases he : (m.set f none).isEmpty = true
      · simp [he, lookupEntry, cacheFind_cacheErase_self]
      · simp [he, lookupEntry, cacheFind_cacheSet_self, OrientMap.get_set_self]

/-- Witness for the amended C3: removing the demo object's north variant
under a failing snapshot write errors, keeps the snapshot, and still strips
the entry from the in-memory table. -/
theorem c3_persist_failure_amended_witness :
    (removeVariant ⟨demoCache, demoCache⟩ "a donut with pink frosting" Facing.north false).1 =
      Except.error persistFailureMsg ∧
    (removeVariant ⟨demoCache, demoCache⟩ "a donut with pink frosting" Facing.north false).2.disk =
      demoCache ∧
    lookupEntry
      (removeVariant ⟨demoCache, demoCache⟩ "a donut with pink frosting" Facing.north false).2.mem
      "a donut with pink frosting" Facing.north = none :=
  (c3_persist_failure_amended ⟨demoCache, demoCache⟩ "a donut with pink frosting"
    Facing.north "/generated/obj_b.png" 9).2.2 (by decide)

/-- C10: the lookup operations are read-only — they return the state they
were given, a stale entry (backing file gone) is reported as a miss without
being deleted, and the only table mutation any create-object request can
perform is the insert of the requested (identity, orientation) pair. -/
theorem c10_lookups_read_only :
    (∀ root st k f, (getCachedVariantOp root st k f).2 = st) ∧
    (∀ root st k, (anyCachedVariantOp root st k).2 = st) ∧
    (∀ root c files k f e, lookupEntry c k f = some e →
      files.contains (absFromImageUrl root e.imageUrl) = false →
      getCachedVariant root c files k f = none) ∧
    (∀ root st req out apiKey persistOk now gen opts,
      (handleGenerateObject root st req out apiKey persistOk now gen opts).2.1.cache.mem =
        st.cache.mem ∨
      (handleGenerateObject root st req out apiKey persistOk now gen opts).2.1.cache.mem =
        cacheInsert st.cache.mem (normalizeObjectKey req.prompt)
          (oppositeFacing (normalizeFacing req.playerFacing)) ⟨out.url, now⟩) := by
  refine ⟨fun _ _ _ _ => rfl, fun _ _ _ => rfl, ?_, ?_⟩
  · intro root c files k f e he hmiss
    simp only [getCachedVariant_as_entry, he]
    by_cases hu : e.imageUrl = ""
    · rw [if_pos hu]
    · rw [if_neg hu, if_neg (by simpa using hmiss)]
  · intro root st req out apiKey persistOk now gen opts
    simp only [handleGenerateObject]
    split
    · left; rfl
    · split
      · left; rfl
      · split
        · split
          · left; rfl
          · split
            · next res cache' heq =>
              right
              have hmem := rememberVariant_mem st.cache (normalizeObjectKey req.prompt)
                (oppositeFacing (normalizeFacing req.playerFacing)) out.url now persistOk
              rw [heq] at hmem
              exact hmem
            · next res cache' heq =>
              right
              have hmem := rememberVariant_mem st.cache (normalizeObjectKey req.prompt)
                (oppositeFacing (normalizeFacing req.playerFacing)) out.url now persistOk
              rw [heq] at hmem
              exact hmem
        · split
          · left; rfl
          · split
            · next res cache' heq =>
              right
              have hmem := rememberVariant_mem st.cache (normalizeObjectKey req.prompt)
                (oppositeFacing (normalizeFacing req.playerFacing)) out.url now persistOk
              rw [heq] at hmem
              exact hmem
            · next res cache' heq =>
              right
              have hmem := rememberVariant_mem st.cache (normalizeObjectKey req.prompt)
                (oppositeFacing (normalizeFacing req.playerFacing)) out.url now persistOk
              rw [heq] at hmem
              exact hmem

/-- Witness for C10: the stale-entry clause at a concrete table whose
backing file list is empty. -/
theorem c10_lookups_read_only_witness :
    getCachedVariant demoRoot demoCache [] "a donut with pink frosting" Facing.north = none :=
  c10_lookups_read_only.2.2.1 demoRoot demoCache [] "a donut with pink frosting"
    Facing.north demoEntry (by decide) (by decide)

/-- Every 200 response of `handleGenerateObject` carries the orientation
opposite to the player's facing and the normalized prompt as object key. -/
theorem handleGenerateObject_ok_fields (root : String) (st : ServerState)
    (req : GenObjectReq) (out : OutFile) (apiKey persistOk : Bool) (now : Nat)
    (gen : GenCall → Except String Unit) (opts : GenOpts) :
    (handleGenerateObject root st req out apiKey persistOk now gen opts).1.status ≠ 200 ∨
    ((handleGenerateObject root st req out apiKey persistOk now gen opts).1.orientation =
        some (oppositeFacing (normalizeFacing req.playerFacing)) ∧
      (handleGenerateObject root st req out apiKey persistOk now gen opts).1.objectKey =
        some (normalizeObjectKey req.prompt)) := by
  simp only [handleGenerateObject]
  split
  · left; simp [Resp.err]
  · split
    · right; exact ⟨rfl, rfl⟩
    · split
      · split
        · left; simp [Resp.err]
        · split
          · right; exact ⟨rfl, rfl⟩
          · left; simp [Resp.err]
      · split
        · left; simp [Resp.err]
        · split
          · right; exact ⟨rfl, rfl⟩
          · left; simp [Resp.err]

/-- C1: on an exact miss with some other cached orientation available, the
handler issues exactly one reorient call using that variant as edit base;
on generator success (and a healthy snapshot write) it inserts the new
variant under the requested orientation and answers `cached = false` with
`reorientedFrom` set to the source orientation; on generator failure it
answers an error, inserts nothing, and tries no other path. -/
theorem c1_cross_orientation_reuse (root : String) (st : ServerState)
    (req : GenObjectReq) (out : OutFile) (persistOk : Bool) (now : Nat)
    (gen : GenCall → Except String Unit) (opts : GenOpts) (av : Facing × Hit)
    (call : GenCall)
    (hname : req.name ≠ "") (hprompt : req.prompt ≠ "")
    (hmiss : getCachedVariant root st.cache.mem st.files (normalizeObjectKey req.prompt)
      (oppositeFacing (normalizeFacing req.playerFacing)) = none)
    (hany : anyCachedVariant root st.cache.mem st.files (normalizeObjectKey req.prompt) =
      some av)
    (hcall : call =
      ⟨reorientPromptFromExisting req.name (oppositeFacing (normalizeFacing req.playerFacing)),
       out.abs, some av.2.abs, [], opts.whiteKey, opts.floodFillThreshold, true⟩) :
    (handleGenerateObject root st req out true persistOk now gen opts).2.2 = [call] ∧
    (gen call = Except.ok () → persistOk = true →
      handleGenerateObject root st req out true persistOk now gen opts =
        (⟨200, some req.name, some out.url, some false, some (normalizeObjectKey req.prompt),
          some (oppositeFacing (normalizeFacing req.playerFacing)), some av.1, none⟩,
         ⟨⟨cacheInsert st.cache.mem (normalizeObjectKey req.prompt)
             (oppositeFacing (normalizeFacing req.playerFacing)) ⟨out.url, now⟩,
           cacheInsert st.cache.mem (normalizeObjectKey req.prompt)
             (oppositeFacing (normalizeFacing req.playerFacing)) ⟨out.url, now⟩⟩,
          out.abs :: st.files⟩, [call])) ∧
    (∀ e, gen call = Except.error e →
      (handleGenerateObject root st req out true persistOk now gen opts).1 =
        Resp.err 500 ("Generator failed: " ++ e) ∧
      (handleGenerateObject root st req out true persistOk now gen opts).2.1 = st) := by
  subst hcall
  rcases hg : gen _ with e | u
  · refine ⟨?_, ?_, ?_⟩
    · simp [handleGenerateObject, hname, hprompt, hmiss, hany, runGenerator, hg]
    · intro hgo
      exact Except.noConfusion hgo
    · intro e' hge
      injection hge with he'
      subst he'
      constructor <;>
        simp [handleGenerateObject, hname, hprompt, hmiss, hany, runGenerator, hg]
  · refine ⟨?_, ?_, ?_⟩
    · cases persistOk <;>
        simp [handleGenerateObject, hname, hprompt, hmiss, hany, runGenerator, hg,
          rememberVariant, saveCache]
    · intro _ hp
      subst hp
      simp [handleGenerateObject, hname, hprompt, hmiss, hany, runGenerator, hg,
        rememberVariant, saveCache]
    · intro e hge
      exact Except.noConfusion hge

/-- Witness for C1: creating the demo object while the player faces north
(object orientation south) reuses the cached north variant as edit base and
persists the new south variant. -/
theorem c1_cross_orientation_reuse_witness :
    (handleGenerateObject demoRoot demoState demoReqSouth demoOut true true 9 genOk
        demoOpts).2.2 =
      [⟨reorientPromptFromExisting "Donut" Facing.south, "/srv/app/public/generated/obj_b.png",
        some "/srv/app/public/generated/obj_a.png", [], none, none, true⟩] ∧
    (genOk ⟨reorientPromptFromExisting "Donut" Facing.south,
        "/srv/app/public/generated/obj_b.png",
        some "/srv/app/public/generated/obj_a.png", [], none, none, true⟩ = Except.ok () →
      true = true →
      handleGenerateObject demoRoot demoState demoReqSouth demoOut true true 9 genOk demoOpts =
        (⟨200, some "Donut", some "/generated/obj_b.png", some false,
          some "a donut with pink frosting", some Facing.south, some Facing.north, none⟩,
         ⟨⟨cacheInsert demoCache "a donut with pink frosting" Facing.south
             ⟨"/generated/obj_b.png", 9⟩,
           cacheInsert demoCache "a donut with pink frosting" Facing.south
             ⟨"/generated/obj_b.png", 9⟩⟩,
          "/srv/app/public/generated/obj_b.png" :: demoFiles⟩,
         [⟨reorientPromptFromExisting "Donut" Facing.south,
           "/srv/app/public/generated/obj_b.png",
           some "/srv/app/public/generated/obj_a.png", [], none, none, true⟩])) ∧
    (∀ e, genOk ⟨reorientPromptFromExisting "Donut" Facing.south,
        "/srv/app/public/generated/obj_b.png",
        some "/srv/app/public/generated/obj_a.png", [], none, none, true⟩ = Except.error e →
      (handleGenerateObject demoRoot demoState demoReqSouth demoOut true true 9 genOk
          demoOpts).1 = Resp.err 500 ("Generator failed: " ++ e) ∧
      (handleGenerateObject demoRoot demoState demoReqSouth demoOut true true 9 genOk
          demoOpts).2.1 = demoState) :=
  c1_cross_orientation_reuse demoRoot demoState demoReqSouth demoOut true 9 genOk demoOpts
    (Facing.north, ⟨"/generated/obj_a.png", "/srv/app/public/generated/obj_a.png"⟩)
    ⟨reorientPromptFromExisting "Donut" Facing.south, "/srv/app/public/generated/obj_b.png",
     some "/srv/app/public/generated/obj_a.png", [], none, none, true⟩
    (by decide) (by decide) (by rfl) (by rfl) (by rfl)

/-- C4: an edit-object request whose image URL is missing, lacks the
`/generated/` prefix, or normalizes outside the generated directory is
rejected with status 400, with no generation call and no state change. -/
theorem c4_edit_path_confinement (root : String) (st : ServerState)
    (req : EditObjectReq) (out : OutFile) (apiKey : Bool)
    (gen : GenCall → Except String Unit) (opts : GenOpts)
    (hbad : req.imageUrl = "" ∨ strStartsWith req.imageUrl "/generated/" = false ∨
      strStartsWith (normalizeAbs (pathJoin (publicDir root) req.imageUrl))
        (normalizeAbs (generatedDir root ++ "/")) = false) :
    (handleEditObject root st req out apiKey gen opts).1.status = 400 ∧
    (handleEditObject root st req out apiKey gen opts).2.1 = st ∧
    (handleEditObject root st req out apiKey gen opts).2.2 = [] := by
  by_cases hmissing : req.name = "" ∨ req.imageUrl = "" ∨ req.interaction = ""
  · simp [handleEditObject, hmissing, Resp.err]
  · have hiu : req.imageUrl ≠ "" := fun h => hmissing (Or.inr (Or.inl h))
    have herr : ∃ e, assertSafeGeneratedPath root req.imageUrl = Except.error e := by
      rcases hbad with h | h | h
      · exact absurd h hiu
      · refine ⟨"Only /generated images can be edited", ?_⟩
        unfold assertSafeGeneratedPath
        rw [if_neg hiu, if_pos (by simp [h])]
      · by_cases h2 : strStartsWith req.imageUrl "/generated/" = true
        · refine ⟨"Invalid image path", ?_⟩
          unfold assertSafeGeneratedPath
          rw [if_neg hiu, if_neg (by simp [h2])]
          simp only []
          rw [if_neg (by simp [h])]
        · have h2' : strStartsWith req.imageUrl "/generated/" = false := by
            cases hx : strStartsWith req.imageUrl "/generated/"
            · rfl
            · exact absurd hx h2
          refine ⟨"Only /generated images can be edited", ?_⟩
          unfold assertSafeGeneratedPath
          rw [if_neg hiu, if_pos (by simp [h2'])]
    rcases herr with ⟨e, he⟩
    simp [handleEditObject, hmissing, he, Resp.err]

/-- Witness for C4: editing an image under `/assets/` is rejected without a
generation call. -/
theorem c4_edit_path_confinement_witness :
    (handleEditObject demoRoot demoState demoBadEdit demoOut true genOk demoOpts).1.status =
      400 ∧
    (handleEditObject demoRoot demoState demoBadEdit demoOut true genOk demoOpts).2.1 =
      demoState ∧
    (handleEditObject demoRoot demoState demoBadEdit demoOut true genOk demoOpts).2.2 = [] :=
  c4_edit_path_confinement demoRoot demoState demoBadEdit demoOut true genOk demoOpts
    (Or.inr (Or.inl (by decide)))

/-- C7: `oppositeFacing` swaps north with south and east with west, is an
involution with no fixed point, and the orientation assigned to a newly
created object (the one reported by every 200 create response) is the
opposite of the requesting player's facing. -/
theorem c7_opposite_facing :
    (∀ f : Facing, oppositeFacing (oppositeFacing f) = f) ∧
    (∀ f : Facing, oppositeFacing f ≠ f) ∧
    oppositeFacing Facing.north = Facing.south ∧
    oppositeFacing Facing.south = Facing.north ∧
    oppositeFacing Facing.east = Facing.west ∧
    oppositeFacing Facing.west = Facing.east ∧
    (∀ root st req out apiKey persistOk now gen opts,
      (handleGenerateObject root st req out apiKey persistOk now gen opts).1.status = 200 →
      (handleGenerateObject root st req out apiKey persistOk now gen opts).1.orientation =
        some (oppositeFacing (normalizeFacing req.playerFacing))) := by
  refine ⟨fun f => by cases f <;> rfl, fun f => by cases f <;> simp [oppositeFacing],
    rfl, rfl, rfl, rfl, ?_⟩
  intro root st req out apiKey persistOk now gen opts h
  exact ((handleGenerateObject_ok_fields root st req out apiKey persistOk now gen
    opts).resolve_left (fun hne => hne h)).1

/-- Witness for C7: the demo exact-hit response reports orientation north,
the opposite of the player's south facing. -/
theorem c7_opposite_facing_witness :
    (handleGenerateObject demoRoot demoState demoReqNorth demoOut true true 9 genOk
        demoOpts).1.orientation = some (oppositeFacing (normalizeFacing "south")) :=
  c7_opposite_facing.2.2.2.2.2.2 demoRoot demoState demoReqNorth demoOut true true 9 genOk
    demoOpts (by rfl)

theorem collapseGo_cons (b : Bool) (c : Char) (l : List Char) :
    collapseGo b (c :: l) =
      if jsWs c then
        (if b then collapseGo true l else ' ' :: collapseGo true l)
      else c :: collapseGo false l := by
  cases b <;> rfl

theorem collapseGo_cons_ws_true (c : Char) (l : List Char) (h : jsWs c = true) :
    collapseGo true (c :: l) = collapseGo true l := by
  rw [collapseGo_cons]
  simp [h]

theorem collapseGo_cons_ws_false (c : Char) (l : List Char) (h : jsWs c = true) :
    collapseGo false (c :: l) = ' ' :: collapseGo true l := by
  rw [collapseGo_cons]
  simp [h]

theorem collapseGo_cons_nonws (b : Bool) (c : Char) (l : List Char) (h : jsWs c = false) :
    collapseGo b (c :: l) = c :: collapseGo false l := by
  rw [collapseGo_cons]
  simp [h]

theorem rtrim_cons (c : Char) (l : List Char) :
    rtrim (c :: l) =
      match rtrim l with
      | [] => if jsWs c then [] else [c]
      | r :: rs => c :: r :: rs := rfl

theorem rtrim_cons_nonws (c : Char) (l : List Char) (h : jsWs c = false) :
    rtrim (c :: l) = c :: rtrim l := by
  rw [rtrim_cons]
  cases hr : rtrim l <;> simp [h]

theorem rtrim_cons_ws_nil (c : Char) (l : List Char) (h : jsWs c = true)
    (hr : rtrim l = []) : rtrim (c :: l) = [] := by
  rw [rtrim_cons, hr]
  simp [h]

theorem rtrim_cons_ws_cons (c : Char) (l : List Char) (r : Char) (rs : List Char)
    (_h : jsWs c = true) (hr : rtrim l = r :: rs) : rtrim (c :: l) = c :: r :: rs := by
  rw [rtrim_cons, hr]

theorem rtrim_eq_nil_iff (l : List Char) : rtrim l = [] ↔ l.all jsWs = true := by
  induction l with
  | nil => simp [rtrim]
  | cons c rest ih =>
    cases hc : jsWs c
    · rw [rtrim_cons_nonws c rest hc]
      simp [hc]
    · cases hr : rtrim rest with
      | nil =>
        rw [rtrim_cons_ws_nil c rest hc hr]
        simp [hc, ih.mp hr]
      | cons r rs =>
        rw [rtrim_cons_ws_cons c rest r rs hc hr]
        have hall : rest.all jsWs = false := by
          cases hx : rest.all jsWs
          · rfl
          · rw [ih.mpr hx] at hr
            cases hr
        simp [hc, hall]

theorem wsTokens_cons (c : Char) (l : List Char) :
    wsTokens (c :: l) =
      if jsWs c then wsTokens l
      else
        match l with
        | [] => [[c]]
        | d :: _ =>
          if jsWs d then [c] :: wsTokens l
          else
            match wsTokens l with
            | [] => [[c]]
            | t :: ts => (c :: t) :: ts := rfl

theorem wsTokens_cons_ws (c : Char) (l : List Char) (h : jsWs c = true) :
    wsTokens (c :: l) = wsTokens l := by
  rw [wsTokens_cons]
  simp [h]

theorem wsTokens_cons_nonws_ne_nil (c : Char) (l : List Char) (h : jsWs c = false) :
    wsTokens (c :: l) ≠ [] := by
  rw [wsTokens_cons]
  simp only [h, Bool.false_eq_true, if_false]
  cases l with
  | nil => simp
  | cons d rest =>
    cases hd : jsWs d
    · cases ht : wsTokens (d :: rest) <;> simp [hd, ht]
    · simp [hd]

theorem wsTokens_eq_nil_iff (l : List Char) : wsTokens l = [] ↔ l.all jsWs = true := by
  induction l with
  | nil => simp [wsTokens]
  | cons c rest ih =>
    cases hc : jsWs c
    · simp [wsTokens_cons_nonws_ne_nil c rest hc, hc]
    · rw [wsTokens_cons_ws c rest hc]
      simp [hc, ih]

theorem joinSp_cons_cons (c : Char) (t : List Char) (ts : List (List Char)) :
    joinSp ((c :: t) :: ts) = c :: joinSp (t :: ts) := by
  cases ts <;> simp [joinSp]

/-- Collapsing whitespace after a right trim renders exactly the
whitespace-separated words joined by single spaces (the `true` state stands
for "a whitespace run is open or the string just started"). -/
theorem collapse_rtrim_eq_joinSp (l : List Char) :
    collapseGo true (rtrim l) = joinSp (wsTokens l) := by
  induction l with
  | nil => simp [rtrim, wsTokens, joinSp, collapseGo]
  | cons c rest ih =>
    cases hc : jsWs c
    · rw [rtrim_cons_nonws c rest hc, collapseGo_cons_nonws true c _ hc]
      cases rest with
      | nil => simp [rtrim, wsTokens, joinSp, collapseGo, hc]
      | cons d rest' =>
        cases hd : jsWs d
        · have hne := wsTokens_cons_nonws_ne_nil d rest' hd
          cases ht : wsTokens (d :: rest') with
          | nil => exact absurd ht hne
          | cons t ts =>
            have htok : wsTokens (c :: d :: rest') = (c :: t) :: ts := by
              rw [wsTokens_cons]
              simp [hc, hd, ht]
            rw [htok, joinSp_cons_cons]
            congr 1
            calc collapseGo false (rtrim (d :: rest'))
                = collapseGo true (rtrim (d :: rest')) := by
                  rw [rtrim_cons_nonws d rest' hd, collapseGo_cons_nonws false d _ hd,
                    collapseGo_cons_nonws true d _ hd]
              _ = joinSp (wsTokens (d :: rest')) := ih
              _ = joinSp (t :: ts) := by rw [ht]
        · have htok : wsTokens (c :: d :: rest') = [c] :: wsTokens (d :: rest') := by
            rw [wsTokens_cons]
            simp [hc, hd]
          rw [htok]
          cases ht : wsTokens (d :: rest') with
          | nil =>
            have hall : (d :: rest').all jsWs = true := (wsTokens_eq_nil_iff _).mp ht
            have hr : rtrim (d :: rest') = [] := (rtrim_eq_nil_iff _).mpr hall
            rw [hr]
            simp [joinSp, collapseGo]
          | cons t ts =>
            have hrr' : rtrim rest' ≠ [] := by
              intro h0
              have hnil : rtrim (d :: rest') = [] := rtrim_cons_ws_nil d rest' hd h0
              have : wsTokens (d :: rest') = [] :=
                (wsTokens_eq_nil_iff _).mpr ((rtrim_eq_nil_iff _).mp hnil)
              rw [ht] at this
              cases this
            cases hr2 : rtrim rest' with
            | nil => exact absurd hr2 hrr'
            | cons r' rs' =>
              have hdd : rtrim (d :: rest') = d :: r' :: rs' :=
                rtrim_cons_ws_cons d rest' r' rs' hd hr2
              rw [hdd, collapseGo_cons_ws_false d _ hd]
              have hih : collapseGo true (r' :: rs') = joinSp (t :: ts) := by
                have h' := ih
                rw [hdd, collapseGo_cons_ws_true d _ hd, ht] at h'
                exact h'
              rw [hih]
              simp [joinSp]
    · rw [wsTokens_cons_ws c rest hc]
      cases hr : rtrim rest with
      | nil =>
        rw [rtrim_cons_ws_nil c rest hc hr]
        have hre := (wsTokens_eq_nil_iff rest).mpr ((rtrim_eq_nil_iff rest).mp hr)
        rw [hre]
        simp [collapseGo, joinSp]
      | cons r rs =>
        rw [rtrim_cons_ws_cons c rest r rs hc hr, collapseGo_cons_ws_true c _ hc, ← hr]
        exact ih

theorem ltrim_head_nonws (l : List Char) (c : Char) (m : List Char)
    (h : ltrim l = c :: m) : jsWs c = false := by
  induction l with
  | nil => cases h
  | cons d rest ih =>
    cases hd : jsWs d
    · rw [show ltrim (d :: rest) = d :: rest by simp [ltrim, List.dropWhile_cons, hd]] at h
      injection h with h1 _
      subst h1
      exact hd
    · rw [show ltrim (d :: rest) = ltrim rest by simp [ltrim, List.dropWhile_cons, hd]] at h
      exact ih h

theorem wsTokens_ltrim (l : List Char) : wsTokens (ltrim l) = wsTokens l := by
  induction l with
  | nil => rfl
  | cons c rest ih =>
    cases hc : jsWs c
    · rw [show ltrim (c :: rest) = c :: rest by simp [ltrim, List.dropWhile_cons, hc]]
    · rw [show ltrim (c :: rest) = ltrim rest by simp [ltrim, List.dropWhile_cons, hc]]
      rw [wsTokens_cons_ws c rest hc]
      exact ih

/-- Trim plus whitespace collapse renders the whitespace-separated words of
the original string joined by single spaces. -/
theorem collapse_trim_eq_joinSp (l : List Char) :
    collapseGo false (rtrim (ltrim l)) = joinSp (wsTokens l) := by
  rw [← wsTokens_ltrim]
  cases hl : ltrim l with
  | nil => simp [rtrim, collapseGo, wsTokens, joinSp]
  | cons c m =>
    have hc : jsWs c = false := ltrim_head_nonws l c m hl
    have h' := collapse_rtrim_eq_joinSp (c :: m)
    rw [rtrim_cons_nonws c m hc, collapseGo_cons_nonws true c _ hc] at h'
    rw [rtrim_cons_nonws c m hc, collapseGo_cons_nonws false c _ hc]
    exact h'

theorem jsWs_lowerChar (c : Char) : jsWs (lowerChar c) = jsWs c := by
  unfold lowerChar
  repeat' split <;> rfl

theorem lowerList_ltrim (l : List Char) : lowerList (ltrim l) = ltrim (lowerList l) := by
  induction l with
  | nil => rfl
  | cons c rest ih =>
    cases hc : jsWs c
    · have h2 : jsWs (lowerChar c) = false := by rw [jsWs_lowerChar]; exact hc
      simp [ltrim, lowerList, List.dropWhile_cons, hc, h2]
    · have h2 : jsWs (lowerChar c) = true := by rw [jsWs_lowerChar]; exact hc
      simpa [ltrim, lowerList, List.dropWhile_cons, hc, h2] using ih

theorem lowerList_rtrim (l : List Char) : lowerList (rtrim l) = rtrim (lowerList l) := by
  induction l with
  | nil => rfl
  | cons c rest ih =>
    have hcons : lowerList (c :: rest) = lowerChar c :: lowerList rest := rfl
    cases hr : rtrim rest with
    | nil =>
      have h0 : rtrim (lowerList rest) = [] := by rw [← ih, hr]; rfl
      rw [rtrim_cons, hr, hcons, rtrim_cons, h0]
      cases hc : jsWs c
      · have h2 : jsWs (lowerChar c) = false := by rw [jsWs_lowerChar]; exact hc
        simp [hc, h2, lowerList]
      · have h2 : jsWs (lowerChar c) = true := by rw [jsWs_lowerChar]; exact hc
        simp [hc, h2, lowerList]
    | cons r rs =>
      have h0 : rtrim (lowerList rest) = lowerChar r :: lowerList rs := by
        rw [← ih, hr]
        rfl
      rw [rtrim_cons, hr, hcons, rtrim_cons, h0]
      rfl

/-- The source's trim–lowercase–collapse pipeline computes exactly the
spec's rendering: lowercased words joined by single spaces. -/
theorem normalizeObjectKey_eq_specIdentity (s : String) :
    normalizeObjectKey s = specIdentity s := by
  unfold normalizeObjectKey specIdentity
  congr 1
  rw [lowerList_rtrim, lowerList_ltrim]
  exact collapse_trim_eq_joinSp (lowerList s.data)

/-- C8: object identity is the prompt trimmed, lowercased, with internal
whitespace collapsed to single spaces; prompts that normalize to the same
text get the same identity, and every 200 create response reports exactly
that identity as its object key. -/
theorem c8_identity_normalization :
    (∀ s, normalizeObjectKey s = specIdentity s) ∧
    (∀ p1 p2, specIdentity p1 = specIdentity p2 →
      normalizeObjectKey p1 = normalizeObjectKey p2) ∧
    (∀ root st req out apiKey persistOk now gen opts,
      (handleGenerateObject root st req out apiKey persistOk now gen opts).1.status = 200 →
      (handleGenerateObject root st req out apiKey persistOk now gen opts).1.objectKey =
        some (normalizeObjectKey req.prompt)) := by
  refine ⟨normalizeObjectKey_eq_specIdentity, ?_, ?_⟩
  · intro p1 p2 h
    rw [normalizeObjectKey_eq_specIdentity, normalizeObjectKey_eq_specIdentity, h]
  · intro root st req out apiKey persistOk now gen opts h
    exact ((handleGenerateObject_ok_fields root st req out apiKey persistOk now gen
      opts).resolve_left (fun hne => hne h)).2

/-- Witness for C8: two prompts differing only in case and whitespace get
the same identity. -/
theorem c8_identity_normalization_witness :
    normalizeObjectKey " A  Donut " = normalizeObjectKey "a dONUT" :=
  c8_identity_normalization.2.1 " A  Donut " "a dONUT" (by rfl)

end Tammie
